import Mathlib

/-!
Verification of the pico_scart_rgb driver (src/scart_rgb.c) against its
natural-language specification.

The development shallowly embeds the C source:
the framebuffer is a byte-indexed store (Nat to Nat, each cell a uint8
value), draw_pixel is the pixel writer of scart_rgb.c lines 77-105, the
DMA control-block table and channel configurations of main (lines
154-221) become explicit Lean structures, and the autonomous
DMA/PIO streaming loop becomes a step machine driven by the chain_to
fields of those control blocks.
-/

namespace ScartRGB

/-! ## Geometry constants (scart_rgb.c lines 39-48) -/

def SCAN_LINES : Nat := 304

def BORDER_TOP_LINES : Nat := 42

def BORDER_BOTTOM_LINES : Nat := 22

def RES_X : Nat := 320

def RES_Y : Nat := SCAN_LINES - BORDER_TOP_LINES - BORDER_BOTTOM_LINES

/-- LINE_COUNT is RES_X >> 1 in the source: two pixels pack per byte. -/
def LINE_COUNT : Nat := RES_X >>> 1

def FRAMEBUFFER_SIZE : Nat := LINE_COUNT * RES_Y

/-! ## PixelStore (scart_rgb.c lines 69-105) -/

/-- The framebuffer s_framebuffer: a byte-indexed store. Each cell holds a
uint8 value (a Nat below 256); indices at or above FRAMEBUFFER_SIZE model
memory outside the array and must never be touched by draw_pixel. -/
def Framebuffer : Type := Nat → Nat

/-- s_framebuffer is zero-initialized (all black), scart_rgb.c line 69. -/
def fbZero : Framebuffer := fun _ => 0

/-- The constant border fill byte s_border_color (scart_rgb.c line 71). -/
def s_border_color : Nat := 0

/-- Clamping of the x coordinate in draw_pixel (lines 79-85).  x is a
uint32_t, so the check x < 0 in the source is vacuously false and the only
effective clamp is against k_max_x = RES_X - 1. -/
def clamped_x (x : Nat) : Nat := if x > RES_X - 1 then RES_X - 1 else x

/-- Clamping of the y coordinate in draw_pixel (lines 80, 86-89).  y is a
uint32_t, so the check y < 0 is vacuously false and the only effective
clamp is against k_max_y = RES_Y - 1. -/
def clamped_y (y : Nat) : Nat := if y > RES_Y - 1 then RES_Y - 1 else y

/-- The linear pixel index computed at line 92: pixel = RES_X * y + x,
after both clamps. -/
def pixel_index (x y : Nat) : Nat := RES_X * clamped_y y + clamped_x x

/-- draw_pixel (scart_rgb.c lines 77-105).  x and y are uint32_t values,
color a uint8_t value.  The target byte is pixel >> 1; if the pixel index
is odd the byte is ORed with color << 3 (the color occupies bits 3-5),
otherwise with color (bits 0-2).  The OR result is stored back into a
uint8_t cell, hence the mod 256. -/
def draw_pixel (fb : Framebuffer) (x y color : Nat) : Framebuffer :=
  let pixel := pixel_index x y
  fun i =>
    if i = pixel >>> 1 then
      if pixel &&& 1 = 1 then (fb i ||| color <<< 3) % 256
      else (fb i ||| color) % 256
    else fb i

/-- Folding a list of (x, y, color) write requests over a framebuffer. -/
def draw_list (fb : Framebuffer) (ws : List (Nat × Nat × Nat)) : Framebuffer :=
  ws.foldl (fun acc w => draw_pixel acc w.1 w.2.1 w.2.2) fb

/-! ## Observation helpers

The specification describes the packing in terms of nibbles (low nibble =
bits 0-3, high nibble = bits 4-7); the code packs at 3-bit granularity
(bits 0-2 for even pixel indices, bits 3-5 for odd ones).  Both readers
are defined so the two descriptions can be compared. -/

/-- Low nibble of a byte, bits 0-3, as the specification words use it. -/
def lowNibble (b : Nat) : Nat := b % 16

/-- High nibble of a byte, bits 4-7, as the specification words use it. -/
def highNibble (b : Nat) : Nat := b / 16 % 16

/-- The 3-bit color field of the even pixel of a byte, bits 0-2, as the
code actually packs it. -/
def evenPixelBits (b : Nat) : Nat := b % 8

/-- The 3-bit color field of the odd pixel of a byte, bits 3-5, as the
code actually packs it (color << 3). -/
def oddPixelBits (b : Nat) : Nat := b / 8 % 8

/-! ## DMA channel configuration (the SDK interface used by main)

The RP2040 SDK type dma_channel_config is a bit-packed CTRL word; the
embedding keeps the fields symbolic.  Field order follows the CTRL
register layout.  The setter functions mirror the SDK functions of the
same names, and dma_channel_get_default_config mirrors the SDK defaults:
enable on, read increment on, write increment off, TREQ = DREQ_FORCE,
chain_to = the channel itself (self-chain means chaining disabled),
32-bit transfers, no ring, no byte swap, IRQ not quiet. -/

structure dma_channel_config where
  enable : Bool
  high_priority : Bool
  data_size : Nat
  read_increment : Bool
  write_increment : Bool
  ring_size : Nat
  ring_write : Bool
  chain_to : Nat
  treq_sel : Nat
  irq_quiet : Bool
  bswap : Bool
  sniff_en : Bool
deriving DecidableEq

def DMA_SIZE_8 : Nat := 0

def DMA_SIZE_16 : Nat := 1

def DMA_SIZE_32 : Nat := 2

def DREQ_FORCE : Nat := 63

/-- pio_get_dreq from the SDK: DREQ index of a PIO state machine FIFO. -/
def pio_get_dreq (pio_idx sm : Nat) (is_tx : Bool) : Nat :=
  sm + (if is_tx then 0 else 4) + pio_idx * 8

def dma_channel_get_default_config (channel : Nat) : dma_channel_config :=
  ⟨true, false, DMA_SIZE_32, true, false, 0, false, channel, DREQ_FORCE,
    false, false, false⟩

def channel_config_set_transfer_data_size
    (c : dma_channel_config) (size : Nat) : dma_channel_config :=
  ⟨c.enable, c.high_priority, size, c.read_increment, c.write_increment,
    c.ring_size, c.ring_write, c.chain_to, c.treq_sel, c.irq_quiet, c.bswap,
    c.sniff_en⟩

def channel_config_set_read_increment
    (c : dma_channel_config) (incr : Bool) : dma_channel_config :=
  ⟨c.enable, c.high_priority, c.data_size, incr, c.write_increment,
    c.ring_size, c.ring_write, c.chain_to, c.treq_sel, c.irq_quiet, c.bswap,
    c.sniff_en⟩

def channel_config_set_write_increment
    (c : dma_channel_config) (incr : Bool) : dma_channel_config :=
  ⟨c.enable, c.high_priority, c.data_size, c.read_increment, incr,
    c.ring_size, c.ring_write, c.chain_to, c.treq_sel, c.irq_quiet, c.bswap,
    c.sniff_en⟩

def channel_config_set_dreq
    (c : dma_channel_config) (dreq : Nat) : dma_channel_config :=
  ⟨c.enable, c.high_priority, c.data_size, c.read_increment,
    c.write_increment, c.ring_size, c.ring_write, c.chain_to, dreq,
    c.irq_quiet, c.bswap, c.sniff_en⟩

def channel_config_set_irq_quiet
    (c : dma_channel_config) (quiet : Bool) : dma_channel_config :=
  ⟨c.enable, c.high_priority, c.data_size, c.read_increment,
    c.write_increment, c.ring_size, c.ring_write, c.chain_to, c.treq_sel,
    quiet, c.bswap, c.sniff_en⟩

def channel_config_set_chain_to
    (c : dma_channel_config) (chain : Nat) : dma_channel_config :=
  ⟨c.enable, c.high_priority, c.data_size, c.read_increment,
    c.write_increment, c.ring_size, c.ring_write, chain, c.treq_sel,
    c.irq_quiet, c.bswap, c.sniff_en⟩

def channel_config_set_ring
    (c : dma_channel_config) (write : Bool) (size_bits : Nat) :
    dma_channel_config :=
  ⟨c.enable, c.high_priority, c.data_size, c.read_increment,
    c.write_increment, size_bits, write, c.chain_to, c.treq_sel,
    c.irq_quiet, c.bswap, c.sniff_en⟩

/-! ## The control block chain of main (scart_rgb.c lines 154-221) -/

/-- The three DMA channels claimed in main, lines 160-162; on fresh
hardware dma_claim_unused_channel hands out the lowest free channels. -/
def channel_0 : Nat := 0

def channel_1 : Nat := 1

def channel_2 : Nat := 2

/-- State machine 1 of PIO instance 0 drives the RGB pins (line 141). -/
def rgb_sm : Nat := 1

/-- Read addresses appearing in the control block table: the single
constant byte s_border_color, or the framebuffer base. -/
inductive ReadAddr where
  | border_color_addr : ReadAddr
  | framebuffer_addr : ReadAddr
deriving DecidableEq

/-- Write addresses appearing in the control block table: the TX FIFO of
a PIO state machine (all three blocks write pio->txf[rgb_sm]). -/
inductive WriteAddr where
  | pio_txf : Nat → WriteAddr
deriving DecidableEq

/-- struct control_block_t, scart_rgb.c lines 107-113: ctrl maps to
al1_ctrl, read_addr to al1_read_addr, write_addr to al1_write_addr and
count to al1_transfer_count_trig of the data channel. -/
structure control_block_t where
  ctrl : dma_channel_config
  read_addr : ReadAddr
  write_addr : WriteAddr
  count : Nat
deriving DecidableEq

/-- The ctrl word for the active-pixel block, built at lines 166-175:
8-bit transfers, read increment on, write increment off, paced by the RGB
FIFO DREQ, IRQ quiet, chained to channel 1. -/
def pixels_ctrl : dma_channel_config :=
  channel_config_set_chain_to
    (channel_config_set_irq_quiet
      (channel_config_set_dreq
        (channel_config_set_write_increment
          (channel_config_set_read_increment
            (channel_config_set_transfer_data_size
              (dma_channel_get_default_config channel_0) DMA_SIZE_8)
            true)
          false)
        (pio_get_dreq 0 rgb_sm true))
      true)
    channel_1

/-- The ctrl word for the top border block, line 178-179: same as the
pixel block but with read increment off (constant fill). -/
def top_border_ctrl : dma_channel_config :=
  channel_config_set_read_increment pixels_ctrl false

/-- The ctrl word for the bottom border block, lines 182-183: same as the
top border but chained to channel 2 to trigger the restart. -/
def bottom_border_ctrl : dma_channel_config :=
  channel_config_set_chain_to top_border_ctrl channel_2

/-- control_blocks[0], line 155: top border. -/
def cb_top : control_block_t :=
  ⟨top_border_ctrl, ReadAddr.border_color_addr, WriteAddr.pio_txf rgb_sm,
    LINE_COUNT * BORDER_TOP_LINES⟩

/-- control_blocks[1], line 156: the real pixels. -/
def cb_active : control_block_t :=
  ⟨pixels_ctrl, ReadAddr.framebuffer_addr, WriteAddr.pio_txf rgb_sm,
    LINE_COUNT * RES_Y⟩

/-- control_blocks[2], line 157: bottom border. -/
def cb_bottom : control_block_t :=
  ⟨bottom_border_ctrl, ReadAddr.border_color_addr, WriteAddr.pio_txf rgb_sm,
    LINE_COUNT * BORDER_BOTTOM_LINES⟩

/-- The control block table of main, lines 154-158, with the ctrl words
written into it at lines 175-183.  It is built once in main and never
written again. -/
def control_blocks : List control_block_t := [cb_top, cb_active, cb_bottom]

/-- The control block at a loader index. -/
def blockAt : Nat → control_block_t
  | 0 => cb_top
  | 1 => cb_active
  | _ => cb_bottom

/-- Configuration of DMA channel 1, the DescriptorLoader, lines 186-202:
32-bit transfers, read and write increment on, a 16-byte ring on the
write pointer, IRQ quiet; each trigger moves loader_transfer_count = 4
words, exactly the four fields of one control block, into channel 0's
al1 register block. -/
def loader_cfg : dma_channel_config :=
  channel_config_set_irq_quiet
    (channel_config_set_ring
      (channel_config_set_write_increment
        (channel_config_set_read_increment
          (channel_config_set_transfer_data_size
            (dma_channel_get_default_config channel_1) DMA_SIZE_32)
          true)
        true)
      true 4)
    true

/-- The reload payload per descriptor is the four 32-bit fields
config/source/destination/count (line 199). -/
def loader_transfer_count : Nat := 4

/-- Configuration of DMA channel 2, the RestartTrigger, lines 206-221:
one 32-bit transfer with no increments; its single fixed write puts the
chain base address (control_block_ptr, line 204) into channel 1's
read-address trigger register, pointing the loader back at
control_blocks[0]. -/
def restart_cfg : dma_channel_config :=
  channel_config_set_irq_quiet
    (channel_config_set_write_increment
      (channel_config_set_read_increment
        (channel_config_set_transfer_data_size
          (dma_channel_get_default_config channel_2) DMA_SIZE_32)
        false)
      false)
    true

/-- The RestartTrigger performs a single fixed write (line 218). -/
def restart_transfer_count : Nat := 1

/-! ## The autonomous streaming loop

The DMA hardware semantics are external to the repository; the machines
below model them for exactly the configuration main builds.  The
descriptor-level loader machine delivers one control block per step;
after delivering a block whose ctrl chains to channel_2 (the
RestartTrigger), the restart write resets the loader read index to the
chain base, counting one restart; otherwise the loader advances to the
following block. -/

structure LoaderState where
  read_idx : Nat
  restarts : Nat
deriving DecidableEq

def loader_step (s : LoaderState) : control_block_t × LoaderState :=
  let cb := blockAt s.read_idx
  if cb.ctrl.chain_to = channel_2 then (cb, ⟨0, s.restarts + 1⟩)
  else (cb, ⟨s.read_idx + 1, s.restarts⟩)

def loader_run : Nat → LoaderState
  | 0 => ⟨0, 0⟩
  | n + 1 => (loader_step (loader_run n)).2

/-- The n-th control block delivered to the data channel, counting from
zero. -/
def delivered (n : Nat) : control_block_t := (loader_step (loader_run n)).1

/-- Element-level engine state: the index of the control block the data
channel is executing, the number of elements already moved within it, and
the number of restarts performed so far. -/
structure EngineState where
  block : Nat
  pos : Nat
  restarts : Nat
deriving DecidableEq

/-- One element transfer of the data channel.  While elements remain in
the current block the position advances; at block exhaustion the chain_to
field of the executed block decides between the RestartTrigger (back to
block 0, one more restart) and the loader feeding the following block. -/
def engine_step (s : EngineState) : EngineState :=
  let cb := blockAt s.block
  if s.pos + 1 < cb.count then ⟨s.block, s.pos + 1, s.restarts⟩
  else if cb.ctrl.chain_to = channel_2 then ⟨0, 0, s.restarts + 1⟩
  else ⟨s.block + 1, 0, s.restarts⟩

/-- Engine state after n element transfers, starting at block 0. -/
def engine_run (n : Nat) : EngineState := engine_step^[n] ⟨0, 0, 0⟩

/-- The byte handed to the sink from a given engine state: border blocks
repeatedly read the one constant byte; the pixel block reads successive
framebuffer bytes (its read increment is on). -/
def element_out (fb : Framebuffer) (s : EngineState) : Nat :=
  match (blockAt s.block).read_addr with
  | ReadAddr.border_color_addr => s_border_color
  | ReadAddr.framebuffer_addr =>
      if (blockAt s.block).ctrl.read_increment then fb s.pos else fb 0

/-- The infinite element stream observed by the sink for a fixed
framebuffer content. -/
def stream (fb : Framebuffer) (n : Nat) : Nat := element_out fb (engine_run n)

/-- Total elements per frame: the sum of the three block counts. -/
def FRAME_ELEMENTS : Nat := cb_top.count + cb_active.count + cb_bottom.count

/-! ## Startup channel claiming (scart_rgb.c lines 160-162) -/

/-- dma_claim_unused_channel from the SDK, modelled on an explicit free
list: hands out the lowest free channel; when none is free it panics -
halting the process - if the required flag is set, and returns -1
otherwise.  main passes required = true at all three call sites. -/
def dma_claim_unused_channel (required : Bool) (free : List Nat) :
    Option (Int × List Nat) :=
  match free with
  | [] => if required then none else some (-1, [])
  | c :: rest => some (Int.ofNat c, rest)

/-- Result of a completed startup: the three claimed channels and the
fact that the engine was started (dma_start_channel_mask, line 239). -/
structure InitResult where
  channels : Int × Int × Int
  started : Bool
deriving DecidableEq

/-- The startup sequence of main restricted to channel acquisition: three
required claims (lines 160-162) happen before the engine start (line
239); none = the process halted inside a claim.  No claim happens after
startup: the steady state is the autonomous loader/engine/restart loop. -/
def scart_init (free : List Nat) : Option InitResult :=
  match dma_claim_unused_channel true free with
  | none => none
  | some (c0, f1) =>
    match dma_claim_unused_channel true f1 with
    | none => none
    | some (c1, f2) =>
      match dma_claim_unused_channel true f2 with
      | none => none
      | some (c2, _) => some ⟨(c0, c1, c2), true⟩

end ScartRGB

namespace ScartRGB

/-! ## Basic facts about the pixel writer -/

theorem clamped_x_of_lt {x : Nat} (h : x < RES_X) : clamped_x x = x := by
  unfold clamped_x RES_X at *
  split <;> omega

theorem clamped_y_of_lt {y : Nat} (h : y < RES_Y) : clamped_y y = y := by
  unfold clamped_y RES_Y SCAN_LINES BORDER_TOP_LINES BORDER_BOTTOM_LINES at *
  split <;> omega

theorem clamped_x_le (x : Nat) : clamped_x x ≤ RES_X - 1 := by
  unfold clamped_x
  split <;> omega

theorem clamped_y_le (y : Nat) : clamped_y y ≤ RES_Y - 1 := by
  unfold clamped_y
  split <;> omega

theorem pixel_index_lt (x y : Nat) : pixel_index x y < RES_X * RES_Y := by
  have hx := clamped_x_le x
  have hy := clamped_y_le y
  unfold pixel_index
  unfold RES_X RES_Y SCAN_LINES BORDER_TOP_LINES BORDER_BOTTOM_LINES at *
  omega

theorem pixel_index_of_lt {x y : Nat} (hx : x < RES_X) (hy : y < RES_Y) :
    pixel_index x y = y * RES_X + x := by
  unfold pixel_index
  rw [clamped_x_of_lt hx, clamped_y_of_lt hy, Nat.mul_comm]

/-- Value written into the target byte of a zeroed store: draw_pixel is
the only writer, and on fbZero the old byte is 0. -/
theorem draw_pixel_fbZero_target (x y c : Nat) :
    draw_pixel fbZero x y c (pixel_index x y >>> 1)
      = (if pixel_index x y &&& 1 = 1 then (c <<< 3) % 256 else c % 256) := by
  unfold draw_pixel fbZero
  simp [Nat.zero_or]

/-- Value of the target byte after one draw_pixel, over any prior store. -/
theorem draw_pixel_target (fb : Framebuffer) (x y c : Nat) :
    draw_pixel fb x y c (pixel_index x y >>> 1)
      = if pixel_index x y &&& 1 = 1
        then (fb (pixel_index x y >>> 1) ||| c <<< 3) % 256
        else (fb (pixel_index x y >>> 1) ||| c) % 256 := by
  unfold draw_pixel
  simp

/-- Bytes other than the target byte are left untouched by draw_pixel. -/
theorem draw_pixel_other (fb : Framebuffer) (x y c i : Nat)
    (h : i ≠ pixel_index x y >>> 1) : draw_pixel fb x y c i = fb i := by
  unfold draw_pixel
  simp [h]

/-- Shifting distributes over bitwise OR. -/
theorem lor_shiftLeft (a b k : Nat) : (a ||| b) <<< k = a <<< k ||| b <<< k := by
  apply Nat.eq_of_testBit_eq
  intro i
  simp [Nat.testBit_shiftLeft, Nat.testBit_or, Bool.and_or_distrib_left]

/-- ORing the same mask twice into a byte cell is the same as ORing it
once, even through the uint8 truncation. -/
theorem lor_mod_lor (a m : Nat) :
    ((a ||| m) % 256 ||| m) % 256 = (a ||| m) % 256 := by
  have h256 : (256 : Nat) = 2 ^ 8 := by norm_num
  rw [h256]
  apply Nat.eq_of_testBit_eq
  intro i
  simp only [Nat.testBit_mod_two_pow, Nat.testBit_or]
  by_cases h : i < 8 <;>
    simp [h, Bool.or_assoc]

/-- Writing the same pixel with the same color twice leaves the store
exactly as one write does. -/
theorem draw_pixel_idem (fb : Framebuffer) (x y c : Nat) :
    draw_pixel (draw_pixel fb x y c) x y c = draw_pixel fb x y c := by
  funext i
  by_cases h : i = pixel_index x y >>> 1
  · subst h
    rw [draw_pixel_target, draw_pixel_target fb]
    split <;> exact lor_mod_lor _ _
  · rw [draw_pixel_other _ _ _ _ _ h, draw_pixel_other _ _ _ _ _ h]

end ScartRGB

namespace ScartRGB

/-! ## Claim C1 -/

/-- C1 counterexample: the claim says that after writing color 1 at the
odd linear index 1 (x = 1, y = 0) the HIGH NIBBLE of byte 0 equals the
color.  The code ORs color << 3 into the byte, so the byte is 8 and its
high nibble is 0, not 1. -/
theorem draw_pixel_high_nibble_mismatch :
    highNibble (draw_pixel fbZero 1 0 1 (((0 : Nat) * RES_X + 1) >>> 1)) ≠ 1 := by
  decide

/-- C1 (amended): for in-range coordinates and a color in 0..7, writing on
the freshly zeroed store places the color at linear index y*RES_X+x: for
even indices the low nibble of byte idx >> 1 equals the color, and for odd
indices bits 3-5 of byte idx >> 1 (the field the code writes with
color << 3) equal the color. -/
theorem draw_pixel_zero_store_reads_back (x y c : Nat)
    (hx : x < RES_X) (hy : y < RES_Y) (hc : c ≤ 7) :
    ((y * RES_X + x) % 2 = 0 →
      lowNibble (draw_pixel fbZero x y c ((y * RES_X + x) >>> 1)) = c) ∧
    ((y * RES_X + x) % 2 = 1 →
      oddPixelBits (draw_pixel fbZero x y c ((y * RES_X + x) >>> 1)) = c) := by
  have hp : pixel_index x y = y * RES_X + x := pixel_index_of_lt hx hy
  have ht := draw_pixel_fbZero_target x y c
  rw [hp] at ht
  constructor
  · intro he
    rw [ht, if_neg (by rw [Nat.and_one_is_mod, he]; decide)]
    unfold lowNibble
    omega
  · intro ho
    rw [ht, if_pos (by rw [Nat.and_one_is_mod, ho])]
    unfold oddPixelBits
    rw [Nat.shiftLeft_eq]
    norm_num
    omega

/-- C1 witness: the amended statement evaluated at x = 1, y = 0, c = 1. -/
theorem draw_pixel_zero_store_reads_back_witness :
    (1 : Nat) < RES_X ∧ (0 : Nat) < RES_Y ∧ (1 : Nat) ≤ 7 ∧
    oddPixelBits (draw_pixel fbZero 1 0 1 ((0 * RES_X + 1) >>> 1)) = 1 :=
  ⟨by decide, by decide, by decide,
    (draw_pixel_zero_store_reads_back 1 0 1 (by decide) (by decide)
      (by decide)).2 (by decide)⟩

/-! ## Claim C4 -/

/-- C4 counterexample: writing colors 1 then 2 at the same odd pixel
(x = 1, y = 0) leaves byte 0 at value 24; the addressed nibble in the
claim words (the high nibble, for an odd index) is then 1, not 1 ||| 2 = 3. -/
theorem draw_pixel_merge_nibble_mismatch :
    highNibble (draw_pixel (draw_pixel fbZero 1 0 1) 1 0 2
      (((0 : Nat) * RES_X + 1) >>> 1)) ≠ (1 ||| 2) := by
  decide

/-- C4 (amended): writes merge by bitwise OR, never replace: writing c1
then c2 at the same in-range pixel of a zeroed store leaves the addressed
3-bit color field (bits 0-2 for an even linear index, bits 3-5 for an odd
one) holding c1 ||| c2, and writing the same color twice leaves exactly
the store of a single write. -/
theorem draw_pixel_merges_or (x y c1 c2 : Nat)
    (hx : x < RES_X) (hy : y < RES_Y) (h1 : c1 ≤ 7) (h2 : c2 ≤ 7) :
    ((y * RES_X + x) % 2 = 0 →
      evenPixelBits (draw_pixel (draw_pixel fbZero x y c1) x y c2
        ((y * RES_X + x) >>> 1)) = (c1 ||| c2)) ∧
    ((y * RES_X + x) % 2 = 1 →
      oddPixelBits (draw_pixel (draw_pixel fbZero x y c1) x y c2
        ((y * RES_X + x) >>> 1)) = (c1 ||| c2)) ∧
    draw_pixel (draw_pixel fbZero x y c1) x y c1 = draw_pixel fbZero x y c1 := by
  have hp : pixel_index x y = y * RES_X + x := pixel_index_of_lt hx hy
  have ht1 := draw_pixel_fbZero_target x y c1
  have ht2 := draw_pixel_target (draw_pixel fbZero x y c1) x y c2
  rw [hp] at ht1 ht2
  have hor : c1 ||| c2 < 8 :=
    Nat.or_lt_two_pow (show c1 < 2 ^ 3 by omega) (show c2 < 2 ^ 3 by omega)
  refine ⟨?_, ?_, draw_pixel_idem _ _ _ _⟩
  · intro he
    have hand : ¬ (y * RES_X + x) &&& 1 = 1 := by
      rw [Nat.and_one_is_mod, he]; decide
    rw [ht2, if_neg hand, ht1, if_neg hand,
      Nat.mod_eq_of_lt (show c1 < 256 by omega),
      Nat.mod_eq_of_lt (show c1 ||| c2 < 256 by omega)]
    unfold evenPixelBits
    omega
  · intro ho
    have hand : (y * RES_X + x) &&& 1 = 1 := by
      rw [Nat.and_one_is_mod, ho]
    rw [ht2, if_pos hand, ht1, if_pos hand,
      Nat.mod_eq_of_lt (show c1 <<< 3 < 256 by rw [Nat.shiftLeft_eq]; omega),
      ← lor_shiftLeft]
    have hlt : (c1 ||| c2) <<< 3 < 256 := by
      rw [Nat.shiftLeft_eq]; omega
    rw [Nat.mod_eq_of_lt hlt]
    unfold oddPixelBits
    rw [Nat.shiftLeft_eq]
    norm_num
    omega

/-- C4 witness: the amended statement at x = 0, y = 0, c1 = 1, c2 = 2. -/
theorem draw_pixel_merges_or_witness :
    (0 : Nat) < RES_X ∧ (0 : Nat) < RES_Y ∧ (1 : Nat) ≤ 7 ∧ (2 : Nat) ≤ 7 ∧
    evenPixelBits (draw_pixel (draw_pixel fbZero 0 0 1) 0 0 2
      ((0 * RES_X + 0) >>> 1)) = (1 ||| 2) :=
  ⟨by decide, by decide, by decide, by decide,
    (draw_pixel_merges_or 0 0 1 2 (by decide) (by decide) (by decide)
      (by decide)).1 (by decide)⟩

end ScartRGB

namespace ScartRGB

/-! ## Claim C2 -/

/-- A single draw_pixel with a color in 0..7 keeps every byte below 64:
only the two 3-bit color fields (bits 0-5) can ever be set. -/
theorem draw_pixel_byte_lt_64 {fb : Framebuffer} {c : Nat}
    (hb : ∀ j, fb j < 64) (hc : c ≤ 7) (x y : Nat) :
    ∀ i, draw_pixel fb x y c i < 64 := by
  intro i
  by_cases h : i = pixel_index x y >>> 1
  · subst h
    rw [draw_pixel_target]
    have hfb := hb (pixel_index x y >>> 1)
    split
    · have h1 : fb (pixel_index x y >>> 1) ||| c <<< 3 < 64 :=
        Nat.or_lt_two_pow (show _ < 2 ^ 6 from hfb)
          (show c <<< 3 < 2 ^ 6 by rw [Nat.shiftLeft_eq]; omega)
      exact lt_of_le_of_lt (Nat.mod_le _ _) h1
    · have h1 : fb (pixel_index x y >>> 1) ||| c < 64 :=
        Nat.or_lt_two_pow (show _ < 2 ^ 6 from hfb) (show c < 2 ^ 6 by omega)
      exact lt_of_le_of_lt (Nat.mod_le _ _) h1
  · rw [draw_pixel_other _ _ _ _ _ h]
    exact hb i

/-- Any sequence of draw_pixel calls with colors in 0..7 keeps every byte
below 64, starting from any store with that property. -/
theorem draw_list_preserves_lt_64 (ws : List (Nat × Nat × Nat))
    (hc : ∀ w ∈ ws, w.2.2 ≤ 7) :
    ∀ fb : Framebuffer, (∀ j, fb j < 64) → ∀ i, draw_list fb ws i < 64 := by
  induction ws with
  | nil => intro fb hfb i; exact hfb i
  | cons w ws ih =>
    intro fb hfb i
    unfold draw_list
    simp only [List.foldl_cons]
    have hw : w.2.2 ≤ 7 := hc w (List.mem_cons_self w ws)
    have hc2 : ∀ v ∈ ws, v.2.2 ≤ 7 := fun v hv => hc v (List.mem_cons_of_mem w hv)
    exact ih hc2 (draw_pixel fb w.1 w.2.1 w.2.2)
      (draw_pixel_byte_lt_64 hfb hw w.1 w.2.1) i

/-- C2 counterexample: a single write of color 7 at the odd linear index 1
stores the byte 7 << 3 = 56, whose LOW NIBBLE is 8 - a stored nibble value
outside 0..7, refuting the claim that no write can produce one. -/
theorem draw_pixel_low_nibble_escapes :
    ¬ lowNibble (draw_list fbZero [(1, 0, 7)] 0) ≤ 7 := by
  decide

/-- C2 (amended): for every sequence of pixel writes with colors in 0..7
starting from the zeroed framebuffer, every stored byte stays below 64 -
both 3-bit color fields (bits 0-2 and bits 3-5) lie in 0..7 and bits 6-7
stay clear.  (Stored nibbles, in contrast, can leave 0..7.) -/
theorem draw_list_color_fields_bounded (ws : List (Nat × Nat × Nat))
    (hc : ∀ w ∈ ws, w.2.2 ≤ 7) (i : Nat) :
    draw_list fbZero ws i < 64 ∧
    evenPixelBits (draw_list fbZero ws i) ≤ 7 ∧
    oddPixelBits (draw_list fbZero ws i) ≤ 7 := by
  have h := draw_list_preserves_lt_64 ws hc fbZero
    (fun j => by unfold fbZero; omega) i
  refine ⟨h, ?_, ?_⟩
  · unfold evenPixelBits
    omega
  · unfold oddPixelBits
    omega

/-- C2 witness: the amended statement at the write sequence
(0,0,7), (1,0,7), observed at byte 0 (which then holds 63). -/
theorem draw_list_color_fields_bounded_witness :
    (∀ w ∈ [((0 : Nat), (0 : Nat), (7 : Nat)), (1, 0, 7)], w.2.2 ≤ 7) ∧
    (draw_list fbZero [(0, 0, 7), (1, 0, 7)] 0 < 64 ∧
     evenPixelBits (draw_list fbZero [(0, 0, 7), (1, 0, 7)] 0) ≤ 7 ∧
     oddPixelBits (draw_list fbZero [(0, 0, 7), (1, 0, 7)] 0) ≤ 7) :=
  ⟨by decide, draw_list_color_fields_bounded [(0, 0, 7), (1, 0, 7)] (by decide) 0⟩

/-! ## Claim C3 -/

/-- C3: the claim says draw_pixel with x = -3 behaves like x = 0.  The x
parameter is a uint32_t, so the argument -3 arrives as 2^32 - 3; the
clamp then pulls it UP to RES_X - 1 = 319 (the source check x < 0 is dead
code on an unsigned type).  The call is therefore identical to
x = RES_X - 1 and differs from x = 0: with color 7 on a zeroed store it
sets byte 159 to 56, while x = 0 sets byte 0 to 7 and leaves byte 159
at 0. -/
theorem draw_pixel_negative_x_clamps_high :
    draw_pixel fbZero (2 ^ 32 - 3) 0 7 = draw_pixel fbZero (RES_X - 1) 0 7 ∧
    draw_pixel fbZero (2 ^ 32 - 3) 0 7 159 ≠ draw_pixel fbZero 0 0 7 159 :=
  ⟨rfl, by decide⟩

end ScartRGB

namespace ScartRGB

/-! ## Facts about the descriptor chain and the streaming loop -/

theorem cb_top_count : cb_top.count = 6720 := rfl

theorem cb_active_count : cb_active.count = 38400 := rfl

theorem cb_bottom_count : cb_bottom.count = 3520 := rfl

theorem loader_step_at_0 (r : Nat) : loader_step ⟨0, r⟩ = (cb_top, ⟨1, r⟩) := rfl

theorem loader_step_at_1 (r : Nat) :
    loader_step ⟨1, r⟩ = (cb_active, ⟨2, r⟩) := rfl

theorem loader_step_at_2 (r : Nat) :
    loader_step ⟨2, r⟩ = (cb_bottom, ⟨0, r + 1⟩) := rfl

/-- The loader walks the three-block chain cyclically, restarting once
per pass. -/
theorem loader_run_eq (n : Nat) : loader_run n = ⟨n % 3, n / 3⟩ := by
  induction n with
  | zero => rfl
  | succ n ih =>
    have h3 : n % 3 = 0 ∨ n % 3 = 1 ∨ n % 3 = 2 := by omega
    rw [loader_run, ih]
    rcases h3 with h | h | h <;> rw [h]
    · rw [loader_step_at_0]
      simp only [LoaderState.mk.injEq]
      omega
    · rw [loader_step_at_1]
      simp only [LoaderState.mk.injEq]
      omega
    · rw [loader_step_at_2]
      simp only [LoaderState.mk.injEq]
      omega

/-- The delivered descriptor sequence is the chain repeated cyclically. -/
theorem delivered_eq (n : Nat) : delivered n = blockAt (n % 3) := by
  unfold delivered
  rw [loader_run_eq]
  have h3 : n % 3 = 0 ∨ n % 3 = 1 ∨ n % 3 = 2 := by omega
  rcases h3 with h | h | h <;> rw [h] <;> rfl

end ScartRGB

namespace ScartRGB

/-! ## Claim C5 -/

/-- C5: with the fixed geometry, the three descriptor element counts are
top = 160 * 42 = 6720, active = 160 * 240 = 38400, bottom = 160 * 22 =
3520, summing to 48640 elements per frame; and the counts delivered in
every frame n sum to the same 48640, the chain being built once and
never mutated. -/
theorem frame_element_counts :
    cb_top.count = 6720 ∧ cb_active.count = 38400 ∧ cb_bottom.count = 3520 ∧
    RES_Y = 240 ∧ LINE_COUNT = 160 ∧
    cb_top.count + cb_active.count + cb_bottom.count = 48640 ∧
    FRAME_ELEMENTS = 48640 ∧
    ∀ n, (delivered (3 * n)).count + (delivered (3 * n + 1)).count +
      (delivered (3 * n + 2)).count = 48640 := by
  refine ⟨rfl, rfl, rfl, rfl, rfl, rfl, rfl, ?_⟩
  intro n
  rw [delivered_eq, delivered_eq, delivered_eq]
  have h0 : 3 * n % 3 = 0 := by omega
  have h1 : (3 * n + 1) % 3 = 1 := by omega
  have h2 : (3 * n + 2) % 3 = 2 := by omega
  rw [h0, h1, h2]
  rfl

/-! ## Claim C6 -/

/-- C6: in the chain built at startup, read increment is on only for the
active block (both borders reread the one constant byte), write increment
is off for all three (all write the same PIO TX FIFO), and the chain_to
of the first two blocks hands control back to the loader - which then
loads the following block - while the third block chains to the
RestartTrigger channel, which rewinds the loader to block 0 and counts a
restart. -/
theorem descriptor_chain_wiring :
    (cb_active.ctrl.read_increment = true ∧
     cb_top.ctrl.read_increment = false ∧
     cb_bottom.ctrl.read_increment = false) ∧
    (cb_top.read_addr = ReadAddr.border_color_addr ∧
     cb_bottom.read_addr = ReadAddr.border_color_addr ∧
     cb_active.read_addr = ReadAddr.framebuffer_addr) ∧
    (∀ cb ∈ control_blocks, cb.ctrl.write_increment = false ∧
      cb.write_addr = WriteAddr.pio_txf rgb_sm) ∧
    (cb_top.ctrl.chain_to = channel_1 ∧ cb_active.ctrl.chain_to = channel_1 ∧
     cb_bottom.ctrl.chain_to = channel_2) ∧
    ∀ r : Nat,
      (loader_step ⟨0, r⟩).2 = ⟨1, r⟩ ∧ (loader_step ⟨1, r⟩).2 = ⟨2, r⟩ ∧
      (loader_step ⟨2, r⟩).2 = ⟨0, r + 1⟩ ∧
      (loader_step ⟨0, r⟩).1 = cb_top ∧ (loader_step ⟨1, r⟩).1 = cb_active ∧
      (loader_step ⟨2, r⟩).1 = cb_bottom := by
  refine ⟨⟨rfl, rfl, rfl⟩, ⟨rfl, rfl, rfl⟩, by decide, ⟨rfl, rfl, rfl⟩, ?_⟩
  intro r
  exact ⟨rfl, rfl, rfl, rfl, rfl, rfl⟩

/-- C6 witness: the all-blocks part of the wiring statement evaluated at
the top border block. -/
theorem descriptor_chain_wiring_witness :
    cb_top.ctrl.write_increment = false ∧
    cb_top.write_addr = WriteAddr.pio_txf rgb_sm :=
  descriptor_chain_wiring.2.2.1 cb_top (by decide)

end ScartRGB

namespace ScartRGB

/-! ## Element-level run of the streaming loop -/

/-- One step inside a block: the position advances and nothing else
changes. -/
theorem engine_step_stay {b p r : Nat} (h : p + 1 < (blockAt b).count) :
    engine_step ⟨b, p, r⟩ = ⟨b, p + 1, r⟩ := by
  unfold engine_step
  rw [if_pos h]

theorem engine_step_top_done (r : Nat) :
    engine_step ⟨0, 6719, r⟩ = ⟨1, 0, r⟩ := rfl

theorem engine_step_active_done (r : Nat) :
    engine_step ⟨1, 38399, r⟩ = ⟨2, 0, r⟩ := rfl

theorem engine_step_bottom_done (r : Nat) :
    engine_step ⟨2, 3519, r⟩ = ⟨0, 0, r + 1⟩ := rfl

/-- Iterating inside a block. -/
theorem engine_iterate_stay :
    ∀ (k : Nat) {b p r : Nat}, p + k < (blockAt b).count →
      engine_step^[k] ⟨b, p, r⟩ = ⟨b, p + k, r⟩ := by
  intro k
  induction k with
  | zero => intro b p r _; simp
  | succ k ih =>
    intro b p r h
    rw [Function.iterate_succ_apply, engine_step_stay (by omega),
      ih (by omega)]
    have hq : p + 1 + k = p + (k + 1) := by omega
    rw [hq]

/-- Running the engine through the whole top border block. -/
theorem engine_run_top (r : Nat) :
    engine_step^[6720] ⟨0, 0, r⟩ = ⟨1, 0, r⟩ := by
  have h : (6720 : Nat) = 1 + 6719 := by norm_num
  rw [h, Function.iterate_add_apply,
    engine_iterate_stay 6719 (by
      have hc : (blockAt 0).count = 6720 := rfl
      omega)]
  simp only [Function.iterate_one]
  exact engine_step_top_done r

/-- Running the engine through the whole active pixel block. -/
theorem engine_run_active (r : Nat) :
    engine_step^[38400] ⟨1, 0, r⟩ = ⟨2, 0, r⟩ := by
  have h : (38400 : Nat) = 1 + 38399 := by norm_num
  rw [h, Function.iterate_add_apply,
    engine_iterate_stay 38399 (by
      have hc : (blockAt 1).count = 38400 := rfl
      omega)]
  simp only [Function.iterate_one]
  exact engine_step_active_done r

/-- Running the engine through the whole bottom border block, ending in a
restart. -/
theorem engine_run_bottom (r : Nat) :
    engine_step^[3520] ⟨2, 0, r⟩ = ⟨0, 0, r + 1⟩ := by
  have h : (3520 : Nat) = 1 + 3519 := by norm_num
  rw [h, Function.iterate_add_apply,
    engine_iterate_stay 3519 (by
      have hc : (blockAt 2).count = 3520 := rfl
      omega)]
  simp only [Function.iterate_one]
  exact engine_step_bottom_done r

/-- Running the engine through one whole frame: back at block 0, one more
restart. -/
theorem engine_run_frame (r : Nat) :
    engine_step^[48640] ⟨0, 0, r⟩ = ⟨0, 0, r + 1⟩ := by
  have h : (48640 : Nat) = 3520 + (38400 + 6720) := by norm_num
  rw [h, Function.iterate_add_apply, Function.iterate_add_apply,
    engine_run_top, engine_run_active, engine_run_bottom]

/-- After N whole frames the engine is back at the chain start with
exactly N restarts performed. -/
theorem engine_run_frames (N : Nat) :
    engine_run (N * 48640) = ⟨0, 0, N⟩ := by
  induction N with
  | zero => rfl
  | succ N ih =>
    have h : (N + 1) * 48640 = 48640 + N * 48640 := by ring
    unfold engine_run at *
    rw [h, Function.iterate_add_apply, ih, engine_run_frame]

/-- The engine transition ignores the restart counter. -/
theorem engine_step_restart_shift (s : EngineState) (d : Nat) :
    engine_step ⟨s.block, s.pos, s.restarts + d⟩ =
      ⟨(engine_step s).block, (engine_step s).pos,
        (engine_step s).restarts + d⟩ := by
  rcases s with ⟨b, p, r⟩
  by_cases h1 : p + 1 < (blockAt b).count
  · simp [engine_step, h1]
  · by_cases h2 : (blockAt b).ctrl.chain_to = channel_2
    · simp [engine_step, h1, h2, EngineState.mk.injEq]
      omega
    · simp [engine_step, h1, h2]

/-- Runs from the chain start differ only by the restart counter. -/
theorem engine_iterate_restart_shift (e : Nat) :
    ∀ r : Nat, engine_step^[e] ⟨0, 0, r⟩ =
      ⟨(engine_run e).block, (engine_run e).pos,
        (engine_run e).restarts + r⟩ := by
  induction e with
  | zero =>
    intro r
    simp [engine_run]
  | succ e ih =>
    intro r
    rw [Function.iterate_succ_apply', ih r]
    have hr := engine_step_restart_shift (engine_run e) r
    rw [hr]
    have he : engine_run (e + 1) = engine_step (engine_run e) :=
      Function.iterate_succ_apply' engine_step e ⟨0, 0, 0⟩
    rw [he]

/-- The element handed to the sink does not depend on the restart
counter. -/
theorem element_out_restart_free (fb : Framebuffer) (b p r r2 : Nat) :
    element_out fb ⟨b, p, r⟩ = element_out fb ⟨b, p, r2⟩ := rfl

end ScartRGB

namespace ScartRGB

/-! ## Claim C7 -/

/-- C7: each exhaustion of the three-block chain causes exactly one
restart - after N whole frames the engine has performed exactly N
restarts and sits again at the start of the chain - the RestartTrigger
reload is a single fixed write of the chain base, the reload payload per
descriptor is the four fields config/source/destination/count, the
descriptor sequence delivered to the sink repeats top, active, bottom
forever, and the element stream seen by the sink is periodic with period
FRAME_ELEMENTS = 48640, the total per-frame element count. -/
theorem restart_cycle (fb : Framebuffer) (N e n : Nat) :
    engine_run (N * FRAME_ELEMENTS) = ⟨0, 0, N⟩ ∧
    stream fb (e + FRAME_ELEMENTS) = stream fb e ∧
    delivered n = blockAt (n % 3) ∧
    loader_run (3 * N) = ⟨0, N⟩ ∧
    restart_transfer_count = 1 ∧ loader_transfer_count = 4 := by
  have hFE : FRAME_ELEMENTS = 48640 := rfl
  refine ⟨?_, ?_, delivered_eq n, ?_, rfl, rfl⟩
  · rw [hFE]
    exact engine_run_frames N
  · rw [hFE]
    unfold stream engine_run
    rw [Function.iterate_add_apply, engine_run_frame,
      engine_iterate_restart_shift e 1]
    rcases h : engine_run e with ⟨b, p, r⟩
    unfold engine_run at h
    rw [h]
    exact element_out_restart_free fb b p (r + 1) r
  · rw [loader_run_eq]
    have h1 : 3 * N % 3 = 0 := by omega
    have h2 : 3 * N / 3 = N := by omega
    rw [h1, h2]

end ScartRGB

namespace ScartRGB

/-! ## Claim C8 -/

/-- C8: every channel acquisition happens in the startup sequence with
the required flag set, so running out of free DMA channels is fatal at
startup: with fewer than three free channels scart_init halts (none)
before the engine start, and whenever startup completes, three channels
were available and the engine start is reached. -/
theorem init_channel_exhaustion_halts (free : List Nat) :
    (free.length < 3 → scart_init free = none) ∧
    (∀ r : InitResult, scart_init free = some r →
      r.started = true ∧ 3 ≤ free.length) := by
  rcases free with _ | ⟨a, _ | ⟨b, _ | ⟨c, rest⟩⟩⟩
  · refine ⟨fun _ => rfl, ?_⟩
    intro r h
    simp [scart_init, dma_claim_unused_channel] at h
  · refine ⟨fun _ => rfl, ?_⟩
    intro r h
    simp [scart_init, dma_claim_unused_channel] at h
  · refine ⟨fun _ => rfl, ?_⟩
    intro r h
    simp [scart_init, dma_claim_unused_channel] at h
  · refine ⟨fun h => absurd h (by simp), ?_⟩
    intro r h
    simp only [scart_init, dma_claim_unused_channel, Option.some.injEq] at h
    refine ⟨by rw [← h], by simp⟩

/-- C8 witness: with an empty free-channel list, startup halts. -/
theorem init_channel_exhaustion_halts_witness : scart_init [] = none :=
  (init_channel_exhaustion_halts []).1 (by decide)

/-! ## Claim C9 -/

/-- C9: draw_pixel is memory safe for every possible input: for all
uint32_t coordinates and any uint8_t color, the clamped byte index
pixel >> 1 is below FRAMEBUFFER_SIZE = 38400, and draw_pixel never reads
or writes any byte at or beyond FRAMEBUFFER_SIZE. -/
theorem draw_pixel_stays_in_bounds (x y c : Nat)
    (_hx : x < 2 ^ 32) (_hy : y < 2 ^ 32) (_hc : c < 256) :
    pixel_index x y >>> 1 < FRAMEBUFFER_SIZE ∧
    ∀ (fb : Framebuffer) (i : Nat), FRAMEBUFFER_SIZE ≤ i →
      draw_pixel fb x y c i = fb i := by
  have hpl := pixel_index_lt x y
  have hRES : RES_X * RES_Y = 76800 := rfl
  have hFS : FRAMEBUFFER_SIZE = 38400 := rfl
  rw [hRES] at hpl
  have hidx : pixel_index x y >>> 1 < FRAMEBUFFER_SIZE := by
    rw [Nat.shiftRight_eq_div_pow, hFS]
    norm_num
    omega
  refine ⟨hidx, ?_⟩
  intro fb i hi
  apply draw_pixel_other
  omega

/-- C9 witness: the statement at the extreme uint32_t corner with the
extreme uint8_t color. -/
theorem draw_pixel_stays_in_bounds_witness :
    (2 ^ 32 - 1 : Nat) < 2 ^ 32 ∧ (255 : Nat) < 256 ∧
    pixel_index (2 ^ 32 - 1) (2 ^ 32 - 1) >>> 1 < FRAMEBUFFER_SIZE :=
  ⟨by decide, by decide,
    (draw_pixel_stays_in_bounds (2 ^ 32 - 1) (2 ^ 32 - 1) 255
      (by decide) (by decide) (by decide)).1⟩

/-! ## Claim C10 -/

/-- A byte below 256 keeps all its bits through an OR followed by the
uint8 truncation. -/
theorem land_lor_mod (a m : Nat) (h : a < 256) :
    a &&& (a ||| m) % 256 = a := by
  have h256 : (256 : Nat) = 2 ^ 8 := by norm_num
  rw [h256] at h ⊢
  apply Nat.eq_of_testBit_eq
  intro i
  simp only [Nat.testBit_and, Nat.testBit_mod_two_pow, Nat.testBit_or]
  by_cases hi : i < 8
  · rw [decide_eq_true hi]
    cases ha : a.testBit i <;> simp [ha]
  · have hz : a.testBit i = false := by
      apply Nat.testBit_eq_false_of_lt
      calc a < 2 ^ 8 := h
        _ ≤ 2 ^ i := Nat.pow_le_pow_right (by norm_num) (by omega)
    simp [hz]

/-- C10: one draw_pixel call changes at most the single byte at index
pixel >> 1 (every other byte of the store is untouched, and the model
carries no other state), the changed byte is the old byte ORed with the
color mask the parity selects, and - provided the stored byte is a real
uint8 value - the old byte's bits all survive: a write only ever adds
bits. -/
theorem draw_pixel_frame_effect (fb : Framebuffer) (x y c : Nat)
    (hb : fb (pixel_index x y >>> 1) < 256) :
    (∀ i, i ≠ pixel_index x y >>> 1 → draw_pixel fb x y c i = fb i) ∧
    draw_pixel fb x y c (pixel_index x y >>> 1)
      = (fb (pixel_index x y >>> 1) |||
          (if pixel_index x y &&& 1 = 1 then c <<< 3 else c)) % 256 ∧
    fb (pixel_index x y >>> 1) &&&
        draw_pixel fb x y c (pixel_index x y >>> 1)
      = fb (pixel_index x y >>> 1) := by
  refine ⟨fun i hi => draw_pixel_other fb x y c i hi, ?_, ?_⟩
  · rw [draw_pixel_target]
    by_cases h : pixel_index x y &&& 1 = 1
    · rw [if_pos h, if_pos h]
    · rw [if_neg h, if_neg h]
  · rw [draw_pixel_target]
    by_cases h : pixel_index x y &&& 1 = 1
    · rw [if_pos h]
      exact land_lor_mod _ _ hb
    · rw [if_neg h]
      exact land_lor_mod _ _ hb

/-- C10 witness: the statement at the zeroed store with x = y = c = 0:
the modified byte keeps every bit of the old byte. -/
theorem draw_pixel_frame_effect_witness :
    fbZero (pixel_index 0 0 >>> 1) < 256 ∧
    fbZero (pixel_index 0 0 >>> 1) &&&
        draw_pixel fbZero 0 0 0 (pixel_index 0 0 >>> 1)
      = fbZero (pixel_index 0 0 >>> 1) :=
  ⟨by decide, (draw_pixel_frame_effect fbZero 0 0 0 (by decide)).2.2⟩

end ScartRGB
